import Mathlib

/-!
Shallow embedding of the configuration-resolution core of the
`cargo-bundler` repository (`src/bundle/metadata.rs`, `src/bundle/settings.rs`,
`src/bundle/target_info.rs`, `src/main.rs`), together with theorems that
settle the frozen claims about its specification.

Conventions used throughout:
* Rust `HashMap<String, V>` is modelled as an association list
  `List (String × V)`; a `HashMap` is observable only through key lookup,
  so `lookupA` below is its interface, and `insertR` realises
  `HashMap::insert` (replace the binding if the key is present, add it
  otherwise).  The `HashMap` invariant "each key occurs once" appears as a
  `Nodup` hypothesis where a theorem needs it.
* Rust `Option<T>` is `Option T`, `Vec<T>` is `List T`, `String` is `String`.
* Filesystem paths are lists of components.
-/

/-- Category enum. Modelled from the spec: `src/bundle/category.rs` is outside
the provided sources; the spec only says "category enum", so a category is
represented abstractly by its name string. -/
abbrev AppCategory := String

/-- Embedding of `BundleSettings` (src/bundle/metadata.rs, lines 5–38).
The struct is recursive through the three override maps, so it is a nested
inductive; field accessors are defined below in declaration order. -/
inductive BS where
  | mk :
    (name : String) →
    (identifier : Option String) →
    (icon : List String) →
    (version : Option String) →
    (resources_mapping : List (String × String)) →
    (copyright : Option String) →
    (category : Option AppCategory) →
    (short_description : Option String) →
    (long_description : Option String) →
    (linux_mime_types : List String) →
    (linux_exec_args : Option String) →
    (linux_use_terminal : Option Bool) →
    (deb_depends : List String) →
    (osx_frameworks : List String) →
    (osx_plugins : Option (List String)) →
    (osx_minimum_system_version : Option String) →
    (osx_url_schemes : Option (List String)) →
    (osx_info_plist_exts : Option (List String)) →
    (targets : List (String × BS)) →
    (bin : List (String × BS)) →
    (exampleMap : List (String × BS)) →
    BS

def BS.name : BS → String
  | .mk x _ _ _ _ _ _ _ _ _ _ _ _ _ _ _ _ _ _ _ _ => x

def BS.identifier : BS → Option String
  | .mk _ x _ _ _ _ _ _ _ _ _ _ _ _ _ _ _ _ _ _ _ => x

def BS.icon : BS → List String
  | .mk _ _ x _ _ _ _ _ _ _ _ _ _ _ _ _ _ _ _ _ _ => x

def BS.version : BS → Option String
  | .mk _ _ _ x _ _ _ _ _ _ _ _ _ _ _ _ _ _ _ _ _ => x

def BS.resources_mapping : BS → List (String × String)
  | .mk _ _ _ _ x _ _ _ _ _ _ _ _ _ _ _ _ _ _ _ _ => x

def BS.copyright : BS → Option String
  | .mk _ _ _ _ _ x _ _ _ _ _ _ _ _ _ _ _ _ _ _ _ => x

def BS.category : BS → Option AppCategory
  | .mk _ _ _ _ _ _ x _ _ _ _ _ _ _ _ _ _ _ _ _ _ => x

def BS.short_description : BS → Option String
  | .mk _ _ _ _ _ _ _ x _ _ _ _ _ _ _ _ _ _ _ _ _ => x

def BS.long_description : BS → Option String
  | .mk _ _ _ _ _ _ _ _ x _ _ _ _ _ _ _ _ _ _ _ _ => x

def BS.linux_mime_types : BS → List String
  | .mk _ _ _ _ _ _ _ _ _ x _ _ _ _ _ _ _ _ _ _ _ => x

def BS.linux_exec_args : BS → Option String
  | .mk _ _ _ _ _ _ _ _ _ _ x _ _ _ _ _ _ _ _ _ _ => x

def BS.linux_use_terminal : BS → Option Bool
  | .mk _ _ _ _ _ _ _ _ _ _ _ x _ _ _ _ _ _ _ _ _ => x

def BS.deb_depends : BS → List String
  | .mk _ _ _ _ _ _ _ _ _ _ _ _ x _ _ _ _ _ _ _ _ => x

def BS.osx_frameworks : BS → List String
  | .mk _ _ _ _ _ _ _ _ _ _ _ _ _ x _ _ _ _ _ _ _ => x

def BS.osx_plugins : BS → Option (List String)
  | .mk _ _ _ _ _ _ _ _ _ _ _ _ _ _ x _ _ _ _ _ _ => x

def BS.osx_minimum_system_version : BS → Option String
  | .mk _ _ _ _ _ _ _ _ _ _ _ _ _ _ _ x _ _ _ _ _ => x

def BS.osx_url_schemes : BS → Option (List String)
  | .mk _ _ _ _ _ _ _ _ _ _ _ _ _ _ _ _ x _ _ _ _ => x

def BS.osx_info_plist_exts : BS → Option (List String)
  | .mk _ _ _ _ _ _ _ _ _ _ _ _ _ _ _ _ _ x _ _ _ => x

def BS.targets : BS → List (String × BS)
  | .mk _ _ _ _ _ _ _ _ _ _ _ _ _ _ _ _ _ _ x _ _ => x

def BS.bin : BS → List (String × BS)
  | .mk _ _ _ _ _ _ _ _ _ _ _ _ _ _ _ _ _ _ _ x _ => x

def BS.exampleMap : BS → List (String × BS)
  | .mk _ _ _ _ _ _ _ _ _ _ _ _ _ _ _ _ _ _ _ _ x => x

/-- Embedding of `BundleSettings::default()` (derived `Default`): every
`String` empty, every `Option` `None`, every `Vec` and `HashMap` empty. -/
def BS.empty : BS :=
  .mk "" none [] none [] none none none none [] none none [] [] none none none none [] [] []

/-- Association-list lookup: the observable interface of `HashMap::get`. -/
def lookupA {α : Type} : List (String × α) → String → Option α
  | [], _ => none
  | (k, v) :: rest, q => if q = k then some v else lookupA rest q

/-- Model of `HashMap::insert` on the association-list representation:
replace the binding whose key matches, otherwise add the binding. -/
def insertR {α : Type} : List (String × α) → String × α → List (String × α)
  | [], kv => [kv]
  | p :: rest, kv => if p.1 = kv.1 then kv :: rest else p :: insertR rest kv

/-- Embedding of `self.map.into_iter().chain(other.map).collect()`
(src/bundle/metadata.rs lines 48, 88, 89): every entry of `self` and then
every entry of `other` is inserted into an initially empty `HashMap`, so a
later (i.e. `other`) insertion overwrites an earlier one with the same key. -/
def collectChain {α : Type} (a b : List (String × α)) : List (String × α) :=
  (a ++ b).foldl insertR []

/-- Embedding of `BundleSettings::merge` (src/bundle/metadata.rs lines
41–91), field by field in source order, including the `icon` arm exactly as
written there (`if self.icon.is_empty() { self.icon } else { other.icon }`). -/
def BS.merge (s o : BS) : BS :=
  .mk
    (if s.name.isEmpty then o.name else s.name)
    (s.identifier.or o.identifier)
    (if s.icon.isEmpty then s.icon else o.icon)
    (s.version.or o.version)
    (if s.resources_mapping.isEmpty then o.resources_mapping else s.resources_mapping)
    (s.copyright.or o.copyright)
    (s.category.or o.category)
    (s.short_description.or o.short_description)
    (s.long_description.or o.long_description)
    (if s.linux_mime_types.isEmpty then o.linux_mime_types else s.linux_mime_types)
    (s.linux_exec_args.or o.linux_exec_args)
    (s.linux_use_terminal.or o.linux_use_terminal)
    (if s.deb_depends.isEmpty then o.deb_depends else s.deb_depends)
    (if s.osx_frameworks.isEmpty then o.osx_frameworks else s.osx_frameworks)
    (s.osx_plugins.or o.osx_plugins)
    (s.osx_minimum_system_version.or o.osx_minimum_system_version)
    (s.osx_url_schemes.or o.osx_url_schemes)
    (s.osx_info_plist_exts.or o.osx_info_plist_exts)
    (collectChain s.targets o.targets)
    (collectChain s.bin o.bin)
    (collectChain s.exampleMap o.exampleMap)

theorem lookupA_insertR {α : Type} (m : List (String × α)) (kv : String × α) (q : String) :
    lookupA (insertR m kv) q = if q = kv.1 then some kv.2 else lookupA m q := by
  induction m with
  | nil => simp [insertR, lookupA]
  | cons p rest ih =>
    by_cases hp : p.1 = kv.1
    · by_cases hq : q = kv.1 <;> simp [insertR, hp, lookupA, hq, hp ▸ hq]
    · by_cases hq : q = p.1 <;> simp [insertR, hp, lookupA, hq, ih]

theorem lookupA_append {α : Type} (m m2 : List (String × α)) (q : String) :
    lookupA (m ++ m2) q = (lookupA m q).or (lookupA m2 q) := by
  induction m with
  | nil => simp [lookupA]
  | cons p rest ih =>
    by_cases hq : q = p.1 <;> simp [lookupA, hq, ih]

theorem lookupA_foldl_insertR {α : Type} (l : List (String × α))
    (init : List (String × α)) (q : String) :
    lookupA (l.foldl insertR init) q = (lookupA l.reverse q).or (lookupA init q) := by
  induction l generalizing init with
  | nil => simp [lookupA]
  | cons kv rest ih =>
    rw [List.foldl_cons, ih, List.reverse_cons, lookupA_append, lookupA_insertR,
      Option.or_assoc]
    congr 1
    by_cases hq : q = kv.1 <;> simp [lookupA, hq]

theorem lookupA_eq_none {α : Type} (l : List (String × α)) (q : String)
    (h : q ∉ l.map Prod.fst) : lookupA l q = none := by
  induction l with
  | nil => rfl
  | cons p rest ih => simp_all [lookupA]

theorem lookupA_reverse_eq {α : Type} (l : List (String × α))
    (h : (l.map Prod.fst).Nodup) (q : String) :
    lookupA l.reverse q = lookupA l q := by
  induction l with
  | nil => rfl
  | cons kv rest ih =>
    rw [List.reverse_cons, lookupA_append]
    rw [List.map_cons] at h
    obtain ⟨hnotin, hrest⟩ := List.nodup_cons.mp h
    by_cases hq : q = kv.1
    · subst hq
      have h1 : lookupA rest.reverse kv.1 = none := by
        apply lookupA_eq_none
        simpa using hnotin
      simp [h1, lookupA]
    · have h2 := ih hrest
      simp [h2, lookupA, hq]

theorem lookupA_collectChain {α : Type} (a b : List (String × α))
    (ha : (a.map Prod.fst).Nodup) (hb : (b.map Prod.fst).Nodup) (q : String) :
    lookupA (collectChain a b) q = (lookupA b q).or (lookupA a q) := by
  unfold collectChain
  rw [lookupA_foldl_insertR]
  simp only [lookupA, Option.or_none]
  rw [List.reverse_append, lookupA_append, lookupA_reverse_eq b hb,
    lookupA_reverse_eq a ha]

theorem merge_targets (s o : BS) : (BS.merge s o).targets = collectChain s.targets o.targets := rfl

theorem merge_bin (s o : BS) : (BS.merge s o).bin = collectChain s.bin o.bin := rfl

theorem merge_exampleMap (s o : BS) :
    (BS.merge s o).exampleMap = collectChain s.exampleMap o.exampleMap := rfl

/-- Configuration that sets only a display name: used as a map entry below. -/
def bsNamed (n : String) : BS :=
  .mk n none [] none [] none none none none [] none none [] [] none none none none [] [] []

/-- Higher-precedence side for the C3 scenario: `bin.foo` present. -/
def A3 : BS :=
  .mk "" none [] none [] none none none none [] none none [] [] none none none none []
    [("foo", bsNamed "A-foo")] []

/-- Lower-precedence side for the C3 scenario: `bin.foo` and `bin.bar` present. -/
def B3 : BS :=
  .mk "" none [] none [] none none none none [] none none [] [] none none none none []
    [("foo", bsNamed "B-foo"), ("bar", bsNamed "B-bar")] []

/-- C3: the claim states that on a key collision the higher-precedence (A) entry
survives `merge(A, B)`.  This is false on the code: `self.bin.into_iter().chain(other.bin).collect()`
inserts `other`'s bindings after `self`'s into the result `HashMap`, so on the
collision at key "foo" the merged map holds B's entry, not A's. -/
theorem c3_counterexample :
    (lookupA (BS.merge A3 B3).bin "foo").map BS.name = some "B-foo" ∧
    (lookupA A3.bin "foo").map BS.name = some "A-foo" ∧
    (lookupA (BS.merge A3 B3).bin "bar").map BS.name = some "B-bar" ∧
    "B-foo" ≠ "A-foo" :=
  ⟨rfl, rfl, rfl, by decide⟩

/-- C3 (amended): each of the three override maps of `merge(A, B)` is the
key-wise union of A's and B's maps, and when the same key is present in both
maps the merged result contains B's (the lower-precedence side's) entry for
that key, since later `HashMap` insertions overwrite earlier ones. -/
theorem c3_merge_map_union (A B : BS) (k : String)
    (hta : (A.targets.map Prod.fst).Nodup) (htb : (B.targets.map Prod.fst).Nodup)
    (hba : (A.bin.map Prod.fst).Nodup) (hbb : (B.bin.map Prod.fst).Nodup)
    (hea : (A.exampleMap.map Prod.fst).Nodup) (heb : (B.exampleMap.map Prod.fst).Nodup) :
    lookupA (A.merge B).targets k = (lookupA B.targets k).or (lookupA A.targets k) ∧
    lookupA (A.merge B).bin k = (lookupA B.bin k).or (lookupA A.bin k) ∧
    lookupA (A.merge B).exampleMap k = (lookupA B.exampleMap k).or (lookupA A.exampleMap k) := by
  refine ⟨?_, ?_, ?_⟩
  · rw [merge_targets, lookupA_collectChain _ _ hta htb]
  · rw [merge_bin, lookupA_collectChain _ _ hba hbb]
  · rw [merge_exampleMap, lookupA_collectChain _ _ hea heb]

/-- Witness for `c3_merge_map_union` at the concrete configurations `A3`, `B3`
and key "foo". -/
theorem c3_merge_map_union_witness :
    ((A3.targets.map Prod.fst).Nodup ∧ (B3.targets.map Prod.fst).Nodup ∧
     (A3.bin.map Prod.fst).Nodup ∧ (B3.bin.map Prod.fst).Nodup ∧
     (A3.exampleMap.map Prod.fst).Nodup ∧ (B3.exampleMap.map Prod.fst).Nodup) ∧
    (lookupA (A3.merge B3).targets "foo" =
        (lookupA B3.targets "foo").or (lookupA A3.targets "foo") ∧
     lookupA (A3.merge B3).bin "foo" = (lookupA B3.bin "foo").or (lookupA A3.bin "foo") ∧
     lookupA (A3.merge B3).exampleMap "foo" =
        (lookupA B3.exampleMap "foo").or (lookupA A3.exampleMap "foo")) :=
  ⟨⟨by decide, by decide, by decide, by decide, by decide, by decide⟩,
    c3_merge_map_union A3 B3 "foo" (by decide) (by decide) (by decide) (by decide)
      (by decide) (by decide)⟩

/-- Configuration whose only non-default fields are a name and a non-empty
icon list, for the C2 scenario. -/
def X2 : BS :=
  .mk "App" none ["icon.png"] none [] none none none none [] none none [] [] none none
    none none [] [] []

/-- C2: evaluation of `BundleSettings::merge` at the failing input.  The `icon`
arm of `merge` reads `if self.icon.is_empty() { self.icon } else { other.icon }`,
inverted relative to every other list field, so merging a configuration with a
non-empty icon list with the empty configuration loses the icons on both sides:
the empty configuration is not a merge identity for the icon field. -/
theorem c2_icon_breaks_identity :
    X2.icon = ["icon.png"] ∧
    (BS.merge X2 BS.empty).icon = [] ∧
    (BS.merge BS.empty X2).icon = [] :=
  ⟨rfl, rfl, rfl⟩

/-- Higher-precedence configuration with every claim-relevant list non-empty. -/
def A5 : BS :=
  .mk "" none ["a.png"] none [("rA", "dstA")] none none none none ["mime-a"] none none
    ["dep-a"] ["fw-a"] none none none none [] [] []

/-- Lower-precedence configuration with different non-empty lists. -/
def B5 : BS :=
  .mk "" none ["b.png"] none [("rB", "dstB")] none none none none ["mime-b"] none none
    ["dep-b"] ["fw-b"] none none none none [] [] []

/-- C5: evaluation of `BundleSettings::merge` at the failing input.  For the
resource mappings, MIME types, Debian dependencies and frameworks the merged
value is A's non-empty list as the claim states, but for the icon list the
merged value is B's list even though A's list is non-empty, because the `icon`
arm of `merge` is inverted. -/
theorem c5_icon_contradicts_list_rule :
    A5.icon = ["a.png"] ∧ B5.icon = ["b.png"] ∧
    (BS.merge A5 B5).icon = ["b.png"] ∧
    (BS.merge A5 B5).resources_mapping = A5.resources_mapping ∧
    (BS.merge A5 B5).linux_mime_types = A5.linux_mime_types ∧
    (BS.merge A5 B5).deb_depends = A5.deb_depends ∧
    (BS.merge A5 B5).osx_frameworks = A5.osx_frameworks :=
  ⟨rfl, rfl, rfl, rfl, rfl, rfl, rfl⟩

/-- Embedding of `PackageType` (src/bundle/settings.rs lines 11–20). -/
inductive PackageType where
  | osxBundle
  | iosBundle
  | windowsMsi
  | wxsMsi
  | deb
  | rpm
  | appImage
  deriving DecidableEq

/-- Embedding of `PackageType::short_name` (src/bundle/settings.rs lines 85–95). -/
def PackageType.short_name : PackageType → String
  | .deb => "deb"
  | .iosBundle => "ios"
  | .windowsMsi => "msi"
  | .wxsMsi => "wxsmsi"
  | .osxBundle => "osx"
  | .rpm => "rpm"
  | .appImage => "appimage"

/-- Embedding of `PackageType::from_short_name` (src/bundle/settings.rs lines 71–83). -/
def PackageType.from_short_name (name : String) : Option PackageType :=
  match name with
  | "deb" => some .deb
  | "ios" => some .iosBundle
  | "msi" => some .windowsMsi
  | "wxsmsi" => some .wxsMsi
  | "osx" => some .osxBundle
  | "rpm" => some .rpm
  | "appimage" => some .appImage
  | _ => none

/-- Embedding of `BuildArtifact` (src/bundle/settings.rs lines 102–107);
`Example` is rendered `exampleArt` because `example` is a Lean keyword. -/
inductive BuildArtifact where
  | main
  | bin (name : String)
  | exampleArt (name : String)

/-- Kind of a cargo-declared target (from the external `cargo_metadata`
crate); only `Bin` is inspected by `get_bundle_settings`, the other kinds are
collapsed into representative variants. -/
inductive TargetKind where
  | bin
  | lib
  | exampleKind
  | other
  deriving DecidableEq

/-- One cargo-declared build target of the package: its name and kinds. -/
structure CargoTarget where
  name : String
  kind : List TargetKind

/-- Embedding of the fields of `BundleTargetInfo` (src/bundle/target_info.rs
lines 16–24) that the resolution pipeline reads.  The `package : Package`
field is represented by the package's name, its declared targets, and the
`BundleSettings` parsed from its `[package.metadata.bundle]` section (the
result of `bundle_settings_of_package`, which this embedding takes as data
rather than re-running the JSON deserializer). -/
structure BundleTargetInfo where
  target_triple : Option String
  package_types : List PackageType
  projectOutDirectory : List String
  profile : String
  packageName : String
  packageTargets : List CargoTarget
  bundleOfPackage : BS

/-- Embedding of `bundle_settings_from_table` (src/bundle/target_info.rs lines
89–102): the named entry of the override map if present, otherwise a printed
warning and `BundleSettings::default()`.  (The written Rust signature wraps the
map in `Option`, which does not match the field type declared in metadata.rs;
the behaviour embedded is the lookup-or-default one.) -/
def bundle_settings_from_table (map : List (String × BS)) (bundleName : String) : BS :=
  match lookupA map bundleName with
  | some bs => bs
  | none => BS.empty

/-- Embedding of `BundleTargetInfo::get_bundle_settings` (src/bundle/target_info.rs
lines 59–86).  `none` models the `panic!` taken when the main artifact is
requested but the package declares no `bin` target.  Note that the function
returns the package-level settings unchanged for `Main`, and the bare map
entry for `Bin`/`Example`; no call to `BundleSettings::merge` occurs. -/
def BundleTargetInfo.get_bundle_settings (info : BundleTargetInfo)
    (build_artifact : BuildArtifact) : Option (BS × String) :=
  match build_artifact with
  | .main =>
    match info.packageTargets.find? (fun t => t.kind.contains TargetKind.bin) with
    | some t => some (info.bundleOfPackage, t.name)
    | none => none
  | .bin n => some (bundle_settings_from_table info.bundleOfPackage.bin n, n)
  | .exampleArt n => some (bundle_settings_from_table info.bundleOfPackage.exampleMap n, n)

/-- Embedding of the part of `Settings::new` (src/bundle/settings.rs lines
125–152) that computes the stored bundle settings and binary name: the binary
name falls back to the package name when `get_bundle_settings` returned an
empty name. -/
def settingsOf (info : BundleTargetInfo) (build_artifact : BuildArtifact) :
    Option (BS × String) :=
  (info.get_bundle_settings build_artifact).map fun p =>
    (p.1, if p.2.isEmpty then info.packageName else p.2)

/-- Embedding of `Settings::bundle_name` (src/bundle/settings.rs lines
215–221), applied to the stored settings and binary name. -/
def bundle_name (bundleSettings : BS) (binaryName : String) : String :=
  if bundleSettings.name.isEmpty then binaryName else bundleSettings.name

/-- Effective bundle name of an artifact: `Settings::new` followed by
`Settings::bundle_name`. -/
def effectiveBundleName (info : BundleTargetInfo) (build_artifact : BuildArtifact) :
    Option String :=
  (settingsOf info build_artifact).map fun p => bundle_name p.1 p.2

/-- Package-level configuration of the C1 scenario: only `name = "App"` at the
package level and a `targets.deb` override with `name = "AppDeb"`. -/
def cfg1 : BS :=
  .mk "App" none [] none [] none none none none [] none none [] [] none none none none
    [("deb", bsNamed "AppDeb")] [] []

/-- Target context of the C1 scenario for a chosen format: one declared `bin`
target named "app". -/
def info1 (fmt : PackageType) : BundleTargetInfo :=
  { target_triple := none
    package_types := [fmt]
    projectOutDirectory := []
    profile := "dev"
    packageName := "app"
    packageTargets := [⟨"app", [TargetKind.bin]⟩]
    bundleOfPackage := cfg1 }

/-- C1: evaluation of the code at the claim's input.  The configuration has a
`targets.deb` override with name "AppDeb", yet the resolved effective bundle
name is "App" for every requested format (deb and osx alike), because
`get_bundle_settings` never reads the `targets` map and `BundleSettings::merge`
has no callers: the per-format override is silently ignored. -/
theorem c1_format_override_ignored :
    lookupA cfg1.targets "deb" = some (bsNamed "AppDeb") ∧
    PackageType.short_name .deb = "deb" ∧
    PackageType.short_name .osxBundle = "osx" ∧
    (∀ fmt : PackageType, effectiveBundleName (info1 fmt) .main = some "App") :=
  ⟨rfl, rfl, rfl, fun _ => rfl⟩

/-- Package-level configuration of the C4 scenario: identifier and copyright
set only at package level, plus a `bin.foo` override that sets only a name. -/
def cfg4 : BS :=
  .mk "" (some "com.acme.app") [] none [] (some "(c) ACME") none none none [] none none
    [] [] none none none none [] [("foo", bsNamed "Foo App")] []

/-- Target context of the C4 scenario. -/
def info4 : BundleTargetInfo :=
  { target_triple := none
    package_types := [PackageType.deb]
    projectOutDirectory := []
    profile := "dev"
    packageName := "app"
    packageTargets := [⟨"app", [TargetKind.bin]⟩]
    bundleOfPackage := cfg4 }

/-- C4: evaluation of the code at the claim's input.  Selecting the named
binary "foo" yields the `bin.foo` map entry alone — the package-level
identifier and copyright do not survive into the effective configuration,
because `get_bundle_settings` returns the entry without merging it over the
package-level settings. -/
theorem c4_override_replaces_wholesale :
    cfg4.copyright = some "(c) ACME" ∧
    cfg4.identifier = some "com.acme.app" ∧
    (settingsOf info4 (.bin "foo")).map
        (fun p => (p.1.name, p.1.identifier, p.1.copyright, p.2)) =
      some ("Foo App", none, none, "foo") :=
  ⟨rfl, rfl, rfl⟩

/-- Loop body of `get_workspace_dir` (src/bundle/target_info.rs lines
127–132): `while dir.pop() { if load_metadata(&dir).is_ok() { return dir; } }`
followed by `current_dir` as the fallback result.  A directory is the list of
its path components innermost-first, so `PathBuf::pop` is the step from
`_ :: parent` to `parent` and it fails exactly at the filesystem root `[]`.
The success of `load_metadata` is abstracted as the predicate `ok`. -/
def wsLoop (ok : List String → Bool) (current_dir : List String) :
    List String → List String
  | [] => current_dir
  | _ :: parent => if ok parent then parent else wsLoop ok current_dir parent

/-- Embedding of `get_workspace_dir` (src/bundle/target_info.rs lines
121–136): probe the starting directory, then walk upward one directory at a
time; if nothing is found, return the starting directory. -/
def get_workspace_dir (ok : List String → Bool) (current_dir : List String) :
    List String :=
  if ok current_dir then current_dir else wsLoop ok current_dir current_dir

/-- Chain of directories probed by the locator: the start and all of its
ancestors up to and including the filesystem root, nearest first. -/
def dirChain : List String → List (List String)
  | [] => [[]]
  | d@(_ :: parent) => d :: dirChain parent

theorem wsLoop_eq (ok : List String → Bool) (orig : List String) (d : List String) :
    wsLoop ok orig d = (((dirChain d).tail).find? ok).getD orig := by
  induction d with
  | nil => rfl
  | cons x parent ih =>
    show (if ok parent then parent else wsLoop ok orig parent) = _
    cases parent with
    | nil =>
      by_cases h : ok [] <;> simp [dirChain, wsLoop, h]
    | cons y q =>
      by_cases h : ok (y :: q)
      · simp [dirChain, h]
      · rw [if_neg h, ih]
        simp [dirChain, List.find?_cons_of_neg _ h]

/-- C7: the workspace locator returns the nearest directory among the start
and its ancestors (checked start-first, one directory at a time) that the
manifest probe accepts, and the original starting directory if no directory up
to and including the filesystem root is accepted.  The locator is a total
function, so the search always terminates and never fails. -/
theorem c7_workspace_locator (ok : List String → Bool) (d : List String) :
    get_workspace_dir ok d = ((dirChain d).find? ok).getD d := by
  unfold get_workspace_dir
  have hchain : dirChain d = d :: (dirChain d).tail := by
    cases d <;> rfl
  by_cases h : ok d
  · rw [if_pos h, hchain, List.find?_cons_of_pos _ h]
    rfl
  · rw [if_neg h, wsLoop_eq]
    conv_rhs => rw [hchain, List.find?_cons_of_neg _ h]

/-- Embedding of the profile computation in `TryFrom<&Cli> for
BundleTargetInfo` (src/bundle/target_info.rs lines 155–164): the release flag
selects "release", an explicit profile is accepted verbatim unless it is the
reserved name "debug", and the default is "dev". -/
def compute_profile (release : Bool) (profile : Option String) : Except String String :=
  if release then .ok "release"
  else
    match profile with
    | some p => if p = "debug" then .error "Profile name `debug` is reserved" else .ok p
    | none => .ok "dev"

/-- Embedding of the profile segment of `BundleTargetInfo::get_target_dir`
(src/bundle/target_info.rs lines 44–48): the build directory for the "dev"
profile is literally named `debug`, which is why that profile name is
reserved. -/
def profile_dir_segment (profile : String) : String :=
  if profile = "dev" then "debug" else profile

/-- C10: constructing the target context with the custom profile name "debug"
fails with the reserved-name error (the release flag and an explicit profile
are mutually exclusive at the CLI, so the custom-profile path has
`release = false`); every other custom profile name is accepted verbatim,
"release" is selected by the release flag, "dev" is the default, and the
build-directory convention maps the "dev" profile to a directory literally
named `debug`. -/
theorem c10_debug_profile_reserved (p : String) (hp : p ≠ "debug") :
    compute_profile false (some "debug") = .error "Profile name `debug` is reserved" ∧
    compute_profile false (some p) = .ok p ∧
    compute_profile true none = .ok "release" ∧
    compute_profile false none = .ok "dev" ∧
    profile_dir_segment "dev" = "debug" := by
  refine ⟨rfl, ?_, rfl, rfl, rfl⟩
  simp [compute_profile, hp]

/-- Witness for `c10_debug_profile_reserved` at the concrete custom profile
name "bench". -/
theorem c10_debug_profile_reserved_witness :
    "bench" ≠ "debug" ∧
    (compute_profile false (some "debug") = .error "Profile name `debug` is reserved" ∧
     compute_profile false (some "bench") = .ok "bench" ∧
     compute_profile true none = .ok "release" ∧
     compute_profile false none = .ok "dev" ∧
     profile_dir_segment "dev" = "debug") :=
  ⟨by decide, c10_debug_profile_reserved "bench" (by decide)⟩

/-- Item yielded by the resource-path iterator: a path (a list of components)
or an error message, i.e. `crate::Result<PathBuf>`. -/
abbrev RItem := Except String (List String)

/-- Abstract filesystem seen by `ResourcePaths`: `glob` is `glob::glob`
applied to a pattern (either a pattern-syntax error or the list of matches,
each match being a path or a per-match read error), `isDir` is
`Path::is_dir`, and `walk` is the entry sequence of
`walkdir::WalkDir::new(path)` (the root directory itself first, then its
descendants, each entry a path or an error). -/
structure FS where
  glob : List String → Except String (List RItem)
  isDir : List String → Bool
  walk : List String → List RItem

/-- Debug rendering of a path, as in `format!("{path:?} is a directory")`. -/
def pathRepr (p : List String) : String :=
  "\"" ++ String.intercalate "/" p ++ "\""

/-- Embedding of the `ResourcePaths` iterator (src/bundle/settings.rs lines
388–455) as a state machine producing its whole remaining output: the state
is the remaining pattern list (`pattern_iter`), the remaining glob matches
(`glob_iter`, `none` when unset) and the remaining walk entries (`walk_iter`,
drained first, exactly as in `next`).  Each equation mirrors one path through
the `loop` in `next`. -/
def rpRun (fs : FS) (allow_walk : Bool) :
    List (List String) → Option (List RItem) → List RItem → List RItem
  | pats, globRem, .error msg :: wrest =>
    .error msg :: rpRun fs allow_walk pats globRem wrest
  | pats, globRem, .ok p :: wrest =>
    if fs.isDir p then rpRun fs allow_walk pats globRem wrest
    else .ok p :: rpRun fs allow_walk pats globRem wrest
  | pats, some (.error msg :: grest), [] =>
    .error msg :: rpRun fs allow_walk pats (some grest) []
  | pats, some (.ok p :: grest), [] =>
    if fs.isDir p then
      if allow_walk then rpRun fs allow_walk pats (some grest) (fs.walk p)
      else .error (pathRepr p ++ " is a directory") :: rpRun fs allow_walk pats (some grest) []
    else .ok p :: rpRun fs allow_walk pats (some grest) []
  | pat :: prest, some [], [] =>
    match fs.glob pat with
    | .error msg => .error msg :: rpRun fs allow_walk prest none []
    | .ok items => rpRun fs allow_walk prest (some items) []
  | pat :: prest, none, [] =>
    match fs.glob pat with
    | .error msg => .error msg :: rpRun fs allow_walk prest none []
    | .ok items => rpRun fs allow_walk prest (some items) []
  | [], some [], [] => []
  | [], none, [] => []
  termination_by pats globRem wrem => (pats.length, (globRem.getD []).length, wrem.length)

/-- Items contributed by draining a directory walk: walk errors are yielded
as errors, directories are skipped, files are yielded. -/
def walkOut (fs : FS) (entries : List RItem) : List RItem :=
  entries.filterMap fun e =>
    match e with
    | .error msg => some (.error msg)
    | .ok p => if fs.isDir p then none else some (.ok p)

/-- Items contributed by draining the matches of one glob: per-match errors
are yielded; a directory match is walked when allowed and is an error
otherwise; a file match is yielded. -/
def globOut (fs : FS) (allow_walk : Bool) (items : List RItem) : List RItem :=
  items.flatMap fun e =>
    match e with
    | .error msg => [.error msg]
    | .ok p =>
      if fs.isDir p then
        if allow_walk then walkOut fs (fs.walk p)
        else [.error (pathRepr p ++ " is a directory")]
      else [.ok p]

/-- Full output of the resource-path iterator over a pattern list: a
pattern-syntax error yields one error item and expansion moves on to the next
pattern; otherwise the glob's matches are drained. -/
def patsOut (fs : FS) (allow_walk : Bool) (pats : List (List String)) : List RItem :=
  pats.flatMap fun pat =>
    match fs.glob pat with
    | .error msg => [.error msg]
    | .ok items => globOut fs allow_walk items

theorem rpRun_walk (fs : FS) (aw : Bool) (pats : List (List String))
    (g : Option (List RItem)) (w : List RItem) :
    rpRun fs aw pats g w = walkOut fs w ++ rpRun fs aw pats g [] := by
  induction w with
  | nil => simp [walkOut]
  | cons e wrest ih =>
    cases e with
    | error msg =>
      simp only [rpRun, walkOut, List.filterMap_cons, ih]
      rfl
    | ok p =>
      by_cases hd : fs.isDir p <;>
        simp [rpRun, walkOut, List.filterMap_cons, hd, ih]

theorem rpRun_someNil (fs : FS) (aw : Bool) (pats : List (List String)) :
    rpRun fs aw pats (some []) [] = rpRun fs aw pats none [] := by
  cases pats <;> simp only [rpRun]

theorem rpRun_glob_append (fs : FS) (aw : Bool) (pats : List (List String))
    (xs ys : List RItem) :
    rpRun fs aw pats (some (xs ++ ys)) [] =
      globOut fs aw xs ++ rpRun fs aw pats (some ys) [] := by
  induction xs with
  | nil => simp [globOut]
  | cons e xrest ih =>
    cases e with
    | error msg =>
      simp only [List.cons_append, rpRun, globOut, List.flatMap_cons, ih]
      simp [globOut]
    | ok p =>
      by_cases hd : fs.isDir p
      · cases aw
        · simp only [List.cons_append, rpRun, hd, if_true, if_false, ih]
          simp [globOut, hd]
        · simp only [List.cons_append, rpRun, hd, if_true, ih, rpRun_walk fs true pats
            (some (xrest ++ ys)) (fs.walk p)]
          simp [globOut, hd]
      · simp only [List.cons_append, rpRun, hd, if_false, ih]
        simp [globOut, hd]

theorem rpRun_eq_patsOut (fs : FS) (aw : Bool) (pats : List (List String)) :
    rpRun fs aw pats none [] = patsOut fs aw pats := by
  induction pats with
  | nil => simp [rpRun, patsOut]
  | cons pat prest ih =>
    simp only [rpRun, patsOut, List.flatMap_cons]
    cases hg : fs.glob pat with
    | error msg =>
      simp only [hg]
      rw [ih]
      rfl
    | ok items =>
      simp only [hg]
      have h2 := rpRun_glob_append fs aw prest items []
      rw [List.append_nil] at h2
      rw [h2, rpRun_someNil, ih]
      rfl

/-- Componentwise model of `Path::strip_prefix(base)`: the remainder of the
path after the base components, or `none` when the base is not a prefix. -/
def stripPre : List String → List String → Option (List String)
  | [], src => some src
  | _ :: _, [] => none
  | b :: bs, c :: cs => if c = b then stripPre bs cs else none

/-- Destination-relative part of a resolved source (src/bundle/settings.rs
lines 257–263): the source with the base directory stripped, or just the
source's file name when prefix-stripping fails. -/
def relOf (base_dir src : List String) : List String :=
  match stripPre base_dir src with
  | some rel => rel
  | none => [(src.getLast?.getD "")]

/-- Embedding of `Settings::resources_paths` (src/bundle/settings.rs lines
242–275).  For each `(base_src, dst)` resource mapping: the base directory is
the pattern's parent when the pattern contains a `*` and the pattern itself
otherwise; the mapping's pattern is expanded through `ResourcePaths` with
directory walking allowed; `if let Ok(src)` keeps only successful items; each
kept source is paired with `output_base.join(dst).join(relative)` (or the
generic `resource_relpath` convention when `dst` is empty, abstracted here by
the `relpath` parameter, since `common::resource_relpath` is outside the
provided sources). -/
def resources_paths (fs : FS) (relpath : List String → List String)
    (mappings : List (List String × List String)) (output_base : List String) :
    List (List String × List String) :=
  mappings.flatMap fun m =>
    let base_src := m.1
    let dst := m.2
    let base_dir :=
      if base_src.any (fun c => c.toList.contains '*') then base_src.dropLast else base_src
    (patsOut fs true [base_src]).filterMap fun item =>
      match item with
      | .ok src =>
        some (src,
          if dst.isEmpty then output_base ++ relpath src
          else output_base ++ dst ++ relOf base_dir src)
      | .error _ => none

/-- C8: with directory walking disabled, a glob match that is a directory
yields an error item in the iterator's output — not a silent skip — and the
output continues with exactly the expansion of the remaining matches of the
same pattern (the machine resumed at `g2`) and then the subsequent
patterns. -/
theorem c8_dir_error_not_fatal (fs : FS) (pat : List String) (post : List (List String))
    (g1 g2 : List RItem) (d : List String)
    (hglob : fs.glob pat = .ok (g1 ++ .ok d :: g2))
    (hdir : fs.isDir d = true) :
    rpRun fs false (pat :: post) none [] =
      globOut fs false g1 ++
        (.error (pathRepr d ++ " is a directory") ::
          rpRun fs false post (some g2) []) := by
  simp only [rpRun, hglob]
  rw [rpRun_glob_append]
  congr 1
  simp only [rpRun, hdir, if_true]
  simp

/-- Filesystem for the C8 witness: pattern `dirpat` matches a file, a
directory and another file; pattern `p2` matches one file. -/
def fs8 : FS where
  glob := fun pat =>
    if pat = ["dirpat"] then .ok [.ok ["f1"], .ok ["d"], .ok ["f2"]]
    else if pat = ["p2"] then .ok [.ok ["g"]]
    else .ok []
  isDir := fun p => p == ["d"]
  walk := fun _ => []

/-- Witness for `c8_dir_error_not_fatal` on `fs8`, together with the fully
evaluated output sequence: the directory error sits between the two file
items of its own pattern and the following pattern's item. -/
theorem c8_dir_error_not_fatal_witness :
    fs8.glob ["dirpat"] = .ok ([.ok ["f1"]] ++ .ok ["d"] :: [.ok ["f2"]]) ∧
    fs8.isDir ["d"] = true ∧
    (rpRun fs8 false [["dirpat"], ["p2"]] none [] =
      globOut fs8 false [.ok ["f1"]] ++
        (.error (pathRepr ["d"] ++ " is a directory") ::
          rpRun fs8 false [["p2"]] (some [.ok ["f2"]]) [])) ∧
    rpRun fs8 false [["dirpat"], ["p2"]] none [] =
      [.ok ["f1"], .error "\"d\" is a directory", .ok ["f2"], .ok ["g"]] :=
  ⟨rfl, rfl,
    c8_dir_error_not_fatal fs8 ["dirpat"] [["p2"]] [.ok ["f1"]] [.ok ["f2"]] ["d"] rfl rfl,
    by rw [rpRun_eq_patsOut]; rfl⟩

/-- Filesystem for the C6 counterexample: the first pattern is malformed,
the second matches one ordinary file. -/
def fs6 : FS where
  glob := fun pat =>
    if pat = ["bad["] then .error "Pattern syntax error"
    else if pat = ["ok.txt"] then .ok [.ok ["ok.txt"]]
    else .ok []
  isDir := fun _ => false
  walk := fun _ => []

/-- C6 counterexample: expanding the first resource mapping encounters a
malformed-glob error, yet `resources_paths` returns only the successful pair
of the second mapping — its result type carries no error at all, so the
error is silently omitted rather than reported, contradicting the claim that
an expansion error is fatal and caller-visible. -/
theorem c6_counterexample :
    rpRun fs6 true [["bad["]] none [] = [.error "Pattern syntax error"] ∧
    resources_paths fs6 (fun p => p)
        [(["bad["], ["assets"]), (["ok.txt"], ["assets"])] [] =
      [(["ok.txt"], ["assets"])] := by
  constructor
  · rw [rpRun_eq_patsOut]; rfl
  · rfl

/-- Test whether an expansion item is a success. -/
def isOkItem : RItem → Bool
  | .ok _ => true
  | .error _ => false

/-- Identical filesystem with every expansion error removed: a
pattern-syntax error becomes an empty match list, and per-match and
per-walk-entry errors are dropped. -/
def scrubFS (fs : FS) : FS where
  glob := fun pat =>
    .ok ((match fs.glob pat with
          | .error _ => []
          | .ok items => items).filter isOkItem)
  isDir := fs.isDir
  walk := fun p => (fs.walk p).filter isOkItem

theorem filterMap_walkOut_scrub {β : Type} (fs : FS) (f : RItem → Option β)
    (hf : ∀ msg, f (.error msg) = none) (w : List RItem) :
    (walkOut fs w).filterMap f = (walkOut (scrubFS fs) (w.filter isOkItem)).filterMap f := by
  induction w with
  | nil => rfl
  | cons e wrest ih =>
    cases e with
    | error msg =>
      simpa [walkOut, isOkItem, List.filter_cons, List.filterMap_cons, hf] using ih
    | ok p =>
      by_cases hd : fs.isDir p
      · simpa [walkOut, scrubFS, isOkItem, List.filter_cons, List.filterMap_cons, hd] using ih
      · cases hfp : f (Except.ok p) <;>
          simpa [walkOut, scrubFS, isOkItem, List.filter_cons, List.filterMap_cons, hd,
            hfp] using ih

theorem filterMap_globOut_scrub {β : Type} (fs : FS) (f : RItem → Option β)
    (hf : ∀ msg, f (.error msg) = none) (items : List RItem) :
    (globOut fs true items).filterMap f =
      (globOut (scrubFS fs) true (items.filter isOkItem)).filterMap f := by
  induction items with
  | nil => rfl
  | cons e rest ih =>
    have hg1 : ∀ (e : RItem) (tl : List RItem), globOut fs true (e :: tl) =
        (match e with
         | .error msg => [.error msg]
         | .ok p => if fs.isDir p then walkOut fs (fs.walk p) else [.ok p]) ++
          globOut fs true tl := by
      intro e tl
      simp [globOut]
    have hg2 : ∀ (e : RItem) (tl : List RItem), globOut (scrubFS fs) true (e :: tl) =
        (match e with
         | .error msg => [.error msg]
         | .ok p => if fs.isDir p then walkOut (scrubFS fs) ((fs.walk p).filter isOkItem)
                    else [.ok p]) ++
          globOut (scrubFS fs) true tl := by
      intro e tl
      simp [globOut, scrubFS]
    cases e with
    | error msg =>
      rw [hg1, List.filterMap_append, List.filter_cons]
      simp [isOkItem, hf, ih]
    | ok p =>
      rw [hg1, List.filterMap_append, List.filter_cons]
      simp only [isOkItem, if_true]
      rw [hg2, List.filterMap_append]
      by_cases hd : fs.isDir p
      · simp [hd, ih, filterMap_walkOut_scrub fs f hf (fs.walk p)]
      · simp [hd, ih]

theorem resources_paths_scrub_mapping (fs : FS) (relpath : List String → List String)
    (output_base : List String) (m : List String × List String) :
    ((patsOut fs true [m.1]).filterMap fun item =>
      match item with
      | .ok src =>
        some (src,
          if m.2.isEmpty then output_base ++ relpath src
          else output_base ++ m.2 ++
            relOf (if m.1.any (fun c => c.toList.contains '*') then m.1.dropLast else m.1) src)
      | .error _ => none) =
    ((patsOut (scrubFS fs) true [m.1]).filterMap fun item =>
      match item with
      | .ok src =>
        some (src,
          if m.2.isEmpty then output_base ++ relpath src
          else output_base ++ m.2 ++
            relOf (if m.1.any (fun c => c.toList.contains '*') then m.1.dropLast else m.1) src)
      | .error _ => none) := by
  cases hg : fs.glob m.1 with
  | error msg =>
    simp [patsOut, List.flatMap_cons, hg, scrubFS, globOut]
  | ok items =>
    simp only [patsOut, List.flatMap_cons, List.flatMap_nil, List.append_nil, hg, scrubFS]
    exact filterMap_globOut_scrub fs _ (fun _ => rfl) items

/-- C6 (amended): a resource-expansion error is not fatal and is not
reported: `Settings::resources_paths` filters expansion items with
`if let Ok(src)`, so its caller-visible result is identical to the result on
the error-free filesystem — failed items are silently omitted and only the
successful pairs are returned. -/
theorem c6_errors_silently_skipped (fs : FS) (relpath : List String → List String)
    (mappings : List (List String × List String)) (output_base : List String) :
    resources_paths fs relpath mappings output_base =
      resources_paths (scrubFS fs) relpath mappings output_base := by
  induction mappings with
  | nil => rfl
  | cons m rest ih =>
    unfold resources_paths
    simp only [List.flatMap_cons]
    unfold resources_paths at ih
    rw [ih]
    congr 1
    exact resources_paths_scrub_mapping fs relpath output_base m

/-- C9: for a resource mapping whose pattern contains a wildcard and whose
destination is non-empty, every successfully resolved source appears in the
output paired with the mapping destination joined onto the source relative to
the pattern's parent directory, with the file's base name as fallback leaf
when prefix-stripping fails (`relOf`). -/
theorem c9_wildcard_destination (fs : FS) (relpath : List String → List String)
    (pat dst output_base src : List String)
    (hstar : pat.any (fun c => c.toList.contains '*') = true)
    (hdst : dst.isEmpty = false)
    (hsrc : Except.ok src ∈ rpRun fs true [pat] none []) :
    (src, output_base ++ dst ++ relOf pat.dropLast src) ∈
      resources_paths fs relpath [(pat, dst)] output_base := by
  rw [rpRun_eq_patsOut] at hsrc
  unfold resources_paths
  simp only [List.flatMap_cons, List.flatMap_nil, List.append_nil]
  refine List.mem_filterMap.mpr ⟨Except.ok src, hsrc, ?_⟩
  simp only [hstar, hdst]
  simp

/-- Filesystem for the C9 witness: the pattern `build/static/*` matches the
directory `build/static/img`, whose walk yields the directory itself and the
file `build/static/img/a.png`. -/
def fs9 : FS where
  glob := fun pat =>
    if pat = ["build", "static", "*"] then .ok [.ok ["build", "static", "img"]]
    else .ok []
  isDir := fun p => p == ["build", "static", "img"]
  walk := fun p =>
    if p = ["build", "static", "img"] then
      [.ok ["build", "static", "img"], .ok ["build", "static", "img", "a.png"]]
    else []

/-- Witness for `c9_wildcard_destination` on `fs9`, together with the fully
evaluated output: the walked file `build/static/img/a.png` is mapped to
destination `assets/img/a.png`. -/
theorem c9_wildcard_destination_witness :
    (["build", "static", "*"].any (fun c => c.toList.contains '*') = true) ∧
    ((["assets"] : List String).isEmpty = false) ∧
    (Except.ok ["build", "static", "img", "a.png"] ∈
      rpRun fs9 true [["build", "static", "*"]] none []) ∧
    ((["build", "static", "img", "a.png"],
        ([] : List String) ++ ["assets"] ++
          relOf (["build", "static", "*"].dropLast) ["build", "static", "img", "a.png"]) ∈
      resources_paths fs9 (fun p => p) [(["build", "static", "*"], ["assets"])] []) ∧
    resources_paths fs9 (fun p => p) [(["build", "static", "*"], ["assets"])] [] =
      [(["build", "static", "img", "a.png"], ["assets", "img", "a.png"])] := by
  have hsrc : Except.ok ["build", "static", "img", "a.png"] ∈
      rpRun fs9 true [["build", "static", "*"]] none [] := by
    rw [rpRun_eq_patsOut]
    exact List.Mem.head _
  refine ⟨rfl, rfl, hsrc, ?_, rfl⟩
  exact c9_wildcard_destination fs9 (fun p => p) ["build", "static", "*"] ["assets"] []
    ["build", "static", "img", "a.png"] rfl rfl hsrc
